import Mathlib

/-!
Shallow embedding of the tanwir-scheduler enrollment pipeline.

The JavaScript sources are embedded as executable Lean definitions:
string primitives reimplement the JavaScript string methods used by the
code (`toLowerCase`, `trim`, `split`, `includes`, `replace(/\s+/g,"")`)
on the underlying character list; objects become structures with
`Option` fields for properties that may be `undefined`; the Firestore
store is a list of documents and a batched write is a list of queued
operations applied at commit time.  Impure details (server timestamps,
logging, auth provisioning, the welcome email, uuid generation) carry
no data that the verified claims depend on and are noted where they are
elided.
-/

/-- JavaScript `s.toLowerCase()` (ASCII case mapping). -/
def jsToLower (s : String) : String := String.mk (s.data.map Char.toLower)

/-- JavaScript `s.trim()`: strip leading and trailing whitespace. -/
def jsTrim (s : String) : String :=
  String.mk (((s.data.dropWhile Char.isWhitespace).reverse.dropWhile Char.isWhitespace).reverse)

/-- JavaScript `s.replace(/\s+/g, "")`: delete every whitespace character. -/
def jsStripWhitespace (s : String) : String :=
  String.mk (s.data.filter (fun c => !c.isWhitespace))

/-- JavaScript `s.includes(sub)`: contiguous substring test. -/
def containsSub (s sub : String) : Bool :=
  s.data.tails.any (fun t => sub.data.isPrefixOf t)

/-- Worker for `jsSplitOnSpace`: split a character list at every occurrence
of `sep`, JavaScript `String.prototype.split` semantics. -/
def splitCharAux (sep : Char) : List Char → List Char → List String
  | acc, [] => [String.mk acc.reverse]
  | acc, x :: xs =>
    if x = sep then String.mk acc.reverse :: splitCharAux sep [] xs
    else splitCharAux sep (x :: acc) xs

/-- JavaScript `s.split(" ")`: split at every single space character;
the result is never empty (`"".split(" ")` is `[""]`). -/
def jsSplitOnSpace (s : String) : List String := splitCharAux ' ' [] s.data

/-- JavaScript `parts.join(" ")`. -/
def joinSpace : List String → String
  | [] => ""
  | [s] => s
  | s :: rest => s ++ " " ++ joinSpace rest

/-- JavaScript `a || d` for a possibly-undefined string `a` and a string
default `d`: the empty string and `undefined` are both falsy. -/
def jsOrElse (o : Option String) (d : String) : String :=
  match o with
  | some s => if s = "" then d else s
  | none => d

/-- JavaScript `a || b` where both operands are possibly-undefined strings. -/
def jsFalsyOr (a b : Option String) : Option String :=
  match a with
  | some s => if s = "" then b else some s
  | none => b

/-- JavaScript string coercion used when a possibly-undefined value is used
as an object key: `undefined` coerces to the string `"undefined"`. -/
def jsKeyString (o : Option String) : String :=
  match o with
  | some s => s
  | none => "undefined"

/-- A Squarespace customization entry: a free-form label/value pair. -/
structure Customization where
  label : String
  value : String
  deriving DecidableEq, Inhabited

/-- A Squarespace variant option: a structured optionName/value pair. -/
structure VariantOption where
  optionName : String
  value : String
  deriving DecidableEq, Inhabited

/-- One purchased unit within an order.  `id` and `productName` may be
absent on raw data, hence `Option`. -/
structure LineItem where
  id : Option String
  lineItemType : String
  productName : Option String
  imageUrl : Option String
  customizations : List Customization
  variantOptions : List VariantOption
  deriving DecidableEq, Inhabited

/-- One commerce order. -/
structure Order where
  id : String
  orderNumber : Option String
  createdOn : Option String
  customerEmail : Option String
  lineItems : List LineItem
  deriving DecidableEq, Inhabited

/-- The studentInfo fragment produced by the course model builders.
Fields that a builder may leave `undefined` are `Option`. -/
structure StudentInfo where
  firstName : String
  lastName : String
  email : Option String
  phone : String
  gender : Option String
  age : Option String
  studentType : Option String
  password : Option String
  deriving DecidableEq, Inhabited

/-- The placementInfo fragment of an Associates Program course record
(src/models/AssociatesProgram.js).  The JavaScript field `section` is
rendered `sectionName` because `section` is reserved in Lean. -/
structure PlacementInfo where
  arabicProficiency : Option String
  readingAbility : Option String
  writingAbility : Option String
  listeningAbility : String
  studiedIslamicSciences : Option String
  previousTopics : Option String
  interestReason : Option String
  level : String
  plan : String
  sectionName : String
  deriving DecidableEq, Inhabited

/-- The guidanceDetails fragment of a Prophetic Guidance course record
(src/models/PropheticGuidance.js, per-line-item builder). -/
structure GuidanceDetails where
  module : String
  plan : String
  sectionName : String
  imageUrl : Option String
  status : String
  deriving DecidableEq, Inhabited

/-- The canonical per-student-per-enrollment record flowing from the
builders into the reconciliation engine.  `orderId` appears on records
produced by the dataProcessor era and is consulted by the part_013
duplicate key; builder-era records leave it `none`. -/
structure CourseRecord where
  courseId : Option String
  orderId : Option String
  orderNumber : Option String
  createdOn : Option String
  courseName : Option String
  courseType : String
  courseRef : Option String
  customerEmail : Option String
  studentInfo : Option StudentInfo
  placementInfo : Option PlacementInfo
  guidanceDetails : Option GuidanceDetails
  deriving DecidableEq, Inhabited

/-- The string `"associate's"` from isAssociatesProgram, assembled around
the apostrophe character. -/
def associatesPossessive : String := "associate" ++ String.singleton '\'' ++ "s"

/-- The customization label `"If yes, please list some of the topics you've
studied and where:"`, assembled around the apostrophe character. -/
def previousTopicsLabel : String :=
  "If yes, please list some of the topics you" ++ String.singleton '\'' ++
    "ve studied and where:"

/-- src/models/AssociatesProgram.js, isAssociatesProgram: case-insensitive
keyword test; a missing or empty course name is falsy and classifies as
no-match. -/
def isAssociatesProgram (courseName : Option String) : Bool :=
  match courseName with
  | none => false
  | some cn =>
    if cn = "" then false
    else
      let name := jsToLower cn
      containsSub name "associates" || containsSub name associatesPossessive ||
        containsSub name "program"

/-- src/models/PropheticGuidance.js, isPropheticGuidance. -/
def isPropheticGuidance (courseName : Option String) : Bool :=
  match courseName with
  | none => false
  | some cn =>
    if cn = "" then false
    else
      let name := jsToLower cn
      containsSub name "prophetic" || containsSub name "guidance" ||
        containsSub name "prophetic guidance"

/-- src/models/PropheticGuidance.js, getCustomization: first customization
whose label matches case-insensitively (no trimming), value or `""`. -/
def getCustomization (customizations : List Customization) (label : String) : String :=
  match customizations.find? (fun cust => jsToLower cust.label == jsToLower label) with
  | some cust => cust.value
  | none => ""

/-- getVariantOption, identical bodies in src/models/AssociatesProgram.js
and src/models/PropheticGuidance.js: first variant option whose
optionName matches case-insensitively, value or `""`. -/
def getVariantOption (options : List VariantOption) (key : String) : String :=
  match options.find? (fun opt => jsToLower opt.optionName == jsToLower key) with
  | some opt => opt.value
  | none => ""

/-- The lookup performed by `Object.fromEntries(item.customizations.map(...))`
followed by `customizations[key]` in the Associates builder: exact label
match, and a duplicated label keeps its last value. -/
def fromEntriesGet (customizations : List Customization) (key : String) : Option String :=
  (customizations.reverse.find? (fun cust => cust.label == key)).map Customization.value

namespace AssociatesProgram

/-- src/models/AssociatesProgram.js, extractLevel: pass-through, trimmed. -/
def extractLevel (sectionValue : String) : String := jsTrim sectionValue

/-- src/models/AssociatesProgram.js, createSingleStudentModel. -/
def createSingleStudentModel (order : Order) (item : LineItem) : CourseRecord :=
  let plan := getVariantOption item.variantOptions "Plan"
  let sectionValue := getVariantOption item.variantOptions "Section"
  let courseRef := "courses/Associates Program " ++ sectionValue
  let fullName := jsOrElse (fromEntriesGet item.customizations "Name") ""
  let nameParts := jsSplitOnSpace fullName
  let firstName := jsOrElse (some (nameParts.headD "")) ""
  let lastName := jsOrElse (some (joinSpace (nameParts.drop 1))) ""
  let email := (fromEntriesGet item.customizations "Email").map jsTrim
  let phone := jsOrElse ((fromEntriesGet item.customizations "Phone").map jsStripWhitespace) ""
  { courseId := some (order.id ++ "-" ++ jsKeyString item.id)
    orderId := none
    orderNumber := order.orderNumber
    createdOn := order.createdOn
    courseName := item.productName
    courseType := "AssociatesProgram"
    courseRef := some courseRef
    customerEmail := none
    studentInfo := some
      { firstName := firstName
        lastName := lastName
        email := email
        phone := phone
        gender := fromEntriesGet item.customizations "Gender"
        age := fromEntriesGet item.customizations "Age"
        studentType := fromEntriesGet item.customizations "I am a"
        password := fromEntriesGet item.customizations "Student Account Password" }
    placementInfo := some
      { arabicProficiency := fromEntriesGet item.customizations "Arabic Reading Ability"
        readingAbility := fromEntriesGet item.customizations "Arabic Reading Ability"
        writingAbility := fromEntriesGet item.customizations
          "How would you rate your Arabic writing ability?"
        listeningAbility := jsOrElse (fromEntriesGet item.customizations
          "How would you rate your Arabic listening and comprehension?") "Not specified"
        studiedIslamicSciences := fromEntriesGet item.customizations
          "Have you studied Islamic sciences before (e.g. Aqeedah, Fiqh, Tafsir, Hadith)?"
        previousTopics := fromEntriesGet item.customizations previousTopicsLabel
        interestReason := fromEntriesGet item.customizations
          "Why are you interested in this course?"
        level := extractLevel sectionValue
        plan := plan
        sectionName := sectionValue }
    guidanceDetails := none }

/-- src/models/AssociatesProgram.js, createAssociatesProgramModel: one model
per SERVICE line item whose productName is exactly "Associates Program". -/
def createAssociatesProgramModel (order : Order) : List CourseRecord :=
  let serviceItems := order.lineItems.filter
    (fun item => item.lineItemType == "SERVICE" && item.productName == some "Associates Program")
  serviceItems.map (createSingleStudentModel order)

end AssociatesProgram

namespace PropheticGuidance

/-- src/models/PropheticGuidance.js, extractModule. -/
def extractModule (sectionValue : String) : String :=
  if containsSub (jsToLower sectionValue) "module" then jsTrim sectionValue else "General"

/-- src/models/PropheticGuidance.js (per-line-item variant),
createSingleStudentModel. -/
def createSingleStudentModel (order : Order) (item : LineItem) : CourseRecord :=
  let fullName := jsOrElse (some (getCustomization item.customizations "Name")) ""
  let nameParts := jsSplitOnSpace fullName
  let firstName := jsOrElse (some (nameParts.headD "")) ""
  let lastName := jsOrElse (some (joinSpace (nameParts.drop 1))) ""
  let email := some (jsTrim (getCustomization item.customizations "Email"))
  let phone := jsOrElse (some (jsStripWhitespace (getCustomization item.customizations "Phone"))) ""
  let plan := getVariantOption item.variantOptions "Plan"
  let sectionValue := getVariantOption item.variantOptions "Section"
  let courseRef := "courses/Prophetic Guidance " ++ sectionValue
  { courseId := some (order.id ++ "-" ++ jsKeyString item.id)
    orderId := none
    orderNumber := order.orderNumber
    createdOn := order.createdOn
    courseName := item.productName
    courseType := "PropheticGuidance"
    courseRef := some courseRef
    customerEmail := none
    studentInfo := some
      { firstName := firstName
        lastName := lastName
        email := email
        phone := phone
        gender := some (getCustomization item.customizations "Gender")
        age := some (getCustomization item.customizations "Age")
        studentType := some (getCustomization item.customizations "I am a")
        password := some (getCustomization item.customizations "Student Account Password") }
    placementInfo := none
    guidanceDetails := some
      { module := extractModule sectionValue
        plan := plan
        sectionName := sectionValue
        imageUrl := item.imageUrl
        status := "enrolled" } }

/-- src/models/PropheticGuidance.js, createPropheticGuidanceModel
(per-line-item variant): one model per SERVICE line item whose
productName is exactly "Prophetic Guidance". -/
def createPropheticGuidanceModel (order : Order) : List CourseRecord :=
  let serviceItems := order.lineItems.filter
    (fun item => item.lineItemType == "SERVICE" && item.productName == some "Prophetic Guidance")
  serviceItems.map (createSingleStudentModel order)

end PropheticGuidance

/-- Insertion-ordered grouping step shared by the grouping loops: JavaScript
object keys preserve first-insertion order and a repeated key appends to
its existing bucket. -/
def addToGroup {α : Type} (groups : List (String × List α)) (key : String) (x : α) :
    List (String × List α) :=
  match groups with
  | [] => [(key, [x])]
  | (k, xs) :: rest =>
    if k = key then (k, xs ++ [x]) :: rest
    else (k, xs) :: addToGroup rest key x

/-- One iteration of the product-name grouping loop of the grouping-variant
mapper: only SERVICE items with a truthy productName are grouped. -/
def productStep (groups : List (String × List LineItem)) (item : LineItem) :
    List (String × List LineItem) :=
  if item.lineItemType = "SERVICE" then
    match item.productName with
    | some p => if p = "" then groups else addToGroup groups p item
    | none => groups
  else groups

/-- src/models/courseMapper.js (grouping variant, lines 29-38): collect the
SERVICE line items with a truthy productName, grouped by product name. -/
def groupByProductName (items : List LineItem) : List (String × List LineItem) :=
  items.foldl productStep []

/-- src/models/courseMapper.js (grouping variant, lines 44-76): classify one
product group and run the matching builder on a clone of the order whose
lineItems are the group; an unclassified group falls to `continue` and
contributes nothing. -/
def mapGroup (order : Order) (courseName : String) (items : List LineItem) :
    List CourseRecord :=
  let courseOrder := { order with lineItems := items }
  if isAssociatesProgram (some courseName) then
    AssociatesProgram.createAssociatesProgramModel courseOrder
  else if isPropheticGuidance (some courseName) then
    PropheticGuidance.createPropheticGuidanceModel courseOrder
  else []

/-- src/models/courseMapper.js, mapCourseToModel (grouping variant, lines
23-79): `none` models the `return null` taken when the order has no line
items; otherwise the per-group results are concatenated. -/
def mapCourseToModel_v1 (order : Order) : Option (List CourseRecord) :=
  if order.lineItems.isEmpty then none
  else
    some ((groupByProductName order.lineItems).foldl
      (fun acc g => acc ++ mapGroup order g.1 g.2) [])

/-- Dispatch result of the earlier single-product mapCourseToModel variant:
which builder receives the (unchanged) order, or the generic tagging of
the whole order as `{...order, courseType: "Generic"}` (the impure
metadata timestamp is elided). -/
inductive MappedV2 where
  | toAssociates (order : Order)
  | toProphetic (order : Order)
  | generic (courseType : String) (order : Order)
  deriving DecidableEq

/-- src/models/courseMapper.js, mapCourseToModel (single-product variant,
lines 128-167): classify the first line item only; `none` models the
`return null` cases. -/
def mapCourseToModel_v2 (order : Order) : Option MappedV2 :=
  match order.lineItems with
  | [] => none
  | firstItem :: _ =>
    match firstItem.productName with
    | none => none
    | some courseName =>
      if courseName = "" then none
      else if isAssociatesProgram (some courseName) then some (MappedV2.toAssociates order)
      else if isPropheticGuidance (some courseName) then some (MappedV2.toProphetic order)
      else some (MappedV2.generic "Generic" order)

/-- A persisted authorizedUsers document.  `courses` is `Option` because a
legacy document may lack the field (part_013 branches on its presence);
server timestamps are elided. -/
structure StoredDoc where
  docId : String
  studentInfo : Option StudentInfo
  customerEmail : Option String
  courses : Option (List CourseRecord)
  deriving DecidableEq, Inhabited

/-- A queued Firestore write: a document set (create/overwrite) or a
courses arrayUnion update. -/
inductive BatchOp where
  | setDoc (docId : String) (doc : StoredDoc)
  | updateCourses (docId : String) (coursesToAdd : List CourseRecord)
  deriving DecidableEq

/-- Firestore `FieldValue.arrayUnion`: append each element not already
present (by structural equality), preserving order. -/
def arrayUnion (existing news : List CourseRecord) : List CourseRecord :=
  news.foldl (fun acc c => if c ∈ acc then acc else acc ++ [c]) existing

/-- Apply one queued write to the store. -/
def applyOp (store : List StoredDoc) (op : BatchOp) : List StoredDoc :=
  match op with
  | BatchOp.setDoc docId doc =>
    if store.any (fun d => d.docId == docId) then
      store.map (fun d => if d.docId == docId then doc else d)
    else store ++ [doc]
  | BatchOp.updateCourses docId cs =>
    store.map (fun d =>
      if d.docId == docId then { d with courses := some (arrayUnion (d.courses.getD []) cs) }
      else d)

/-- `batch.commit()`: apply every queued write in order. -/
def commitBatch (store : List StoredDoc) (ops : List BatchOp) : List StoredDoc :=
  ops.foldl applyOp store

/-- part_010 grouping condition (lines 57-71): records without studentInfo
or with a falsy email are skipped; otherwise the grouping key is
`email.toLowerCase().trim()`. -/
def recordEmail? (record : CourseRecord) : Option String :=
  match record.studentInfo with
  | none => none
  | some si =>
    match si.email with
    | none => none
    | some e => if e = "" then none else some (jsTrim (jsToLower e))

/-- One iteration of the part_010 grouping loop. -/
def groupStep (groups : List (String × List CourseRecord)) (record : CourseRecord) :
    List (String × List CourseRecord) :=
  match recordEmail? record with
  | none => groups
  | some e => addToGroup groups e record

/-- part_010 grouping loop (lines 54-71). -/
def groupByEmail (records : List CourseRecord) : List (String × List CourseRecord) :=
  records.foldl groupStep []

/-- part_010 duplicate key (lines 100 and 106): `course.courseId ||
course.orderNumber`, with `undefined` coercing to the object key
`"undefined"`. -/
def courseKey (course : CourseRecord) : String :=
  jsKeyString (jsFalsyOr course.courseId course.orderNumber)

/-- `const { studentInfo: _, ...courseOnly } = course`. -/
def stripStudentInfo (course : CourseRecord) : CourseRecord :=
  { course with studentInfo := none }

/-- part_010 enhanced payment-plan check (lines 114-130): same-type name and
section match for AssociatesProgram (plan is not consulted), name,
section and plan match for PropheticGuidance, `false` for every other
courseType pairing.  JavaScript `?.` on a missing fragment yields
`undefined`, and `undefined === undefined` holds, which the `Option`
equality mirrors. -/
def isDuplicateOf (course existingCourse : CourseRecord) : Bool :=
  if course.courseType = "AssociatesProgram" ∧ existingCourse.courseType = "AssociatesProgram" then
    decide (course.courseName = existingCourse.courseName ∧
      course.placementInfo.map PlacementInfo.sectionName =
        existingCourse.placementInfo.map PlacementInfo.sectionName)
  else if course.courseType = "PropheticGuidance" ∧
      existingCourse.courseType = "PropheticGuidance" then
    decide (course.courseName = existingCourse.courseName ∧
      course.guidanceDetails.map GuidanceDetails.sectionName =
        existingCourse.guidanceDetails.map GuidanceDetails.sectionName ∧
      course.guidanceDetails.map GuidanceDetails.plan =
        existingCourse.guidanceDetails.map GuidanceDetails.plan)
  else false

/-- part_010 new-user document (lines 151-194): studentInfo of the first
course of the group with the password removed and the email normalized,
plus all of the courses of the group stripped of studentInfo.  The
auth-user provisioning, uuid fallback password and welcome email are
side effects that write nothing to the store and are elided. -/
def mkNewDoc (email : String) (group : List CourseRecord) : StoredDoc :=
  let firstCourse := group.headD default
  let si := firstCourse.studentInfo.getD default
  { docId := email
    studentInfo := some { si with password := none, email := some email }
    customerEmail := none
    courses := some (group.map stripStudentInfo) }

/-- part_010 per-email body (lines 78-222): the existence query runs against
the pre-run store (`limit(1)` returns the first match in store order) and
writes are queued on the batch. -/
def processGroup_010 (store : List StoredDoc) (email : String) (group : List CourseRecord) :
    List BatchOp × Nat :=
  match store.find? (fun d => d.studentInfo.bind StudentInfo.email == some email) with
  | some found =>
    let existingCourses := found.courses.getD []
    let existingKeys := existingCourses.map courseKey
    let newCourses := group.filter (fun course =>
      if existingKeys.contains (courseKey course) then false
      else ! existingCourses.any (fun ec => isDuplicateOf course ec))
    if newCourses.isEmpty then ([], 0)
    else ([BatchOp.updateCourses found.docId (newCourses.map stripStudentInfo)], newCourses.length)
  | none =>
    ([BatchOp.setDoc email (mkNewDoc email group)], (group.map stripStudentInfo).length)

/-- part_010 loop over the email groups. -/
def processGroups_010 (store : List StoredDoc) :
    List (String × List CourseRecord) → List BatchOp × Nat
  | [] => ([], 0)
  | g :: rest =>
    let r1 := processGroup_010 store g.1 g.2
    let r2 := processGroups_010 store rest
    (r1.1 ++ r2.1, r1.2 + r2.2)

/-- src/unnamed/part_010, saveToFirestore: group by normalized email,
process each group against the pre-run store, commit the batch, return
the persisted-record count.  The early return on an empty input (which
returns `undefined` in JavaScript) is modeled as count 0. -/
def saveToFirestore_010 (studentRecords : List CourseRecord) (store : List StoredDoc) :
    List StoredDoc × Nat :=
  if studentRecords.isEmpty then (store, 0)
  else
    let groups := groupByEmail studentRecords
    let opsCount := processGroups_010 store groups
    (commitBatch store opsCount.1, opsCount.2)

/-- Character class `[^\s@]` of the part_013 email regex. -/
def noSpaceNoAt (l : List Char) : Bool := l.all (fun c => !c.isWhitespace && c != '@')

/-- part_013 email validation (line 66), the regex
`/^[^\s@]+@[^\s@]+\.[^\s@]+$/`: exactly one `@`, a nonempty local part
and a nonempty domain part without whitespace, and a dot inside the
domain with at least one character on each side. -/
def emailRegexTest (s : String) : Bool :=
  match splitCharAux '@' [] s.data with
  | [localPart, domainPart] =>
    !localPart.data.isEmpty && noSpaceNoAt localPart.data &&
      !domainPart.data.isEmpty && noSpaceNoAt domainPart.data &&
      (domainPart.data.drop 1).dropLast.contains '.'
  | _ => false

/-- part_013 email resolution (line 58): `student.customerEmail ||
(student.studentInfo && student.studentInfo.email)`. -/
def recordEmail013? (record : CourseRecord) : Option String :=
  jsFalsyOr record.customerEmail (record.studentInfo.bind StudentInfo.email)

/-- part_013 validation (lines 57-70): a record survives when its resolved
email is present, nonempty and passes the regex. -/
def validRecord_013 (record : CourseRecord) : Bool :=
  match recordEmail013? record with
  | none => false
  | some e => if e = "" then false else emailRegexTest e

/-- One iteration of the part_013 grouping loop: invalid records are
dropped with a warning; the grouping key is the raw (un-normalized)
email. -/
def groupStep_013 (groups : List (String × List CourseRecord)) (record : CourseRecord) :
    List (String × List CourseRecord) :=
  match recordEmail013? record with
  | none => groups
  | some e =>
    if e = "" then groups
    else if emailRegexTest e then addToGroup groups e record
    else groups

/-- part_013 grouping loop (lines 54-76). -/
def groupByEmail_013 (records : List CourseRecord) : List (String × List CourseRecord) :=
  records.foldl groupStep_013 []

/-- part_013 duplicate key (lines 120 and 126): `course.courseId ||
course.orderId`. -/
def courseKey013 (course : CourseRecord) : String :=
  jsKeyString (jsFalsyOr course.courseId course.orderId)

/-- part_013 new-user write (lines 152-175): the payload keeps the FULL
studentInfo of the first course, password included, plus the raw email at
the top level and the stripped courses. -/
def createOps_013 (docId : String) (email : String) (group : List CourseRecord) :
    List BatchOp :=
  [BatchOp.setDoc docId
    { docId := docId
      studentInfo := (group.headD default).studentInfo
      customerEmail := some email
      courses := some (group.map stripStudentInfo) }]

/-- part_013 per-email body (lines 81-183).  The primary query is on
`studentInfo.email`, with a legacy fallback on `customerEmail`.  A new
document gets an opaque generated id, modeled by a counter.  The result
is (queued ops, count contribution, next counter value). -/
def processGroup_013 (store : List StoredDoc) (nextId : Nat) (email : String)
    (group : List CourseRecord) : List BatchOp × Nat × Nat :=
  let query :=
    match store.find? (fun d => d.studentInfo.bind StudentInfo.email == some email) with
    | some d => some d
    | none => store.find? (fun d => d.customerEmail == some email)
  match query with
  | some found =>
    match found.courses with
    | some existingCourses =>
      let existingKeys := existingCourses.map courseKey013
      let newCourses :=
        (group.filter (fun course => ! existingKeys.contains (courseKey013 course))).map
          stripStudentInfo
      if newCourses.isEmpty then ([], 0, nextId)
      else ([BatchOp.updateCourses found.docId newCourses], newCourses.length, nextId)
    | none =>
      (createOps_013 found.docId email group, group.length, nextId)
  | none =>
    (createOps_013 ("newdoc" ++ toString nextId) email group, group.length, nextId + 1)

/-- part_013 loop over the email groups, threading the fresh-id counter. -/
def processGroups_013 (store : List StoredDoc) (nextId : Nat) :
    List (String × List CourseRecord) → List BatchOp × Nat
  | [] => ([], 0)
  | g :: rest =>
    let r1 := processGroup_013 store nextId g.1 g.2
    let r2 := processGroups_013 store r1.2.2 rest
    (r1.1 ++ r2.1, r1.2.1 + r2.2)

/-- src/unnamed/part_013, saveToFirestore: validate and group by raw email,
process each group against the pre-run store, commit, return the count. -/
def saveToFirestore_013 (studentRecords : List CourseRecord) (store : List StoredDoc) :
    List StoredDoc × Nat :=
  if studentRecords.isEmpty then (store, 0)
  else
    let groups := groupByEmail_013 studentRecords
    let opsCount := processGroups_013 store 0 groups
    (commitBatch store opsCount.1, opsCount.2)

/-! Concrete fixtures used by the claim theorems, counterexamples and
witnesses. -/

/-- A studentInfo fixture with a lowercase email and no password. -/
def baseStudentInfo : StudentInfo :=
  { firstName := "Amina", lastName := "Khan", email := some "a@x.com", phone := ""
    gender := none, age := none, studentType := none, password := none }

/-- A minimal course record fixture of an unclassified course type. -/
def baseCourse : CourseRecord :=
  { courseId := some "c1", orderId := none, orderNumber := none, createdOn := none
    courseName := some "X", courseType := "Generic", courseRef := none, customerEmail := none
    studentInfo := none, placementInfo := none, guidanceDetails := none }

/-- A stored document owning the one Generic course `baseCourse`. -/
def genericDoc : StoredDoc :=
  { docId := "a@x.com", studentInfo := some baseStudentInfo, customerEmail := none
    courses := some [baseCourse] }

/-- An incoming record identical to `baseCourse` on (courseType, courseName,
section, plan) but with a different courseId. -/
def genericIncoming : CourseRecord :=
  { baseCourse with courseId := some "c2", studentInfo := some baseStudentInfo }

/-- An Associates placementInfo fixture. -/
def assocPlacement : PlacementInfo :=
  { arabicProficiency := none, readingAbility := none, writingAbility := none
    listeningAbility := "Not specified", studiedIslamicSciences := none
    previousTopics := none, interestReason := none
    level := "Year 1", plan := "Full", sectionName := "Year 1" }

/-- A stored AssociatesProgram course. -/
def assocStored : CourseRecord :=
  { baseCourse with
    courseId := some "c1"
    courseName := some "Associates Program"
    courseType := "AssociatesProgram"
    placementInfo := some assocPlacement }

/-- A stored document owning `assocStored`. -/
def assocDoc : StoredDoc :=
  { docId := "a@x.com", studentInfo := some baseStudentInfo, customerEmail := none
    courses := some [assocStored] }

/-- An incoming AssociatesProgram record that matches `assocStored` on
courseName and section but carries a different courseId. -/
def assocIncoming : CourseRecord :=
  { assocStored with courseId := some "c9", studentInfo := some baseStudentInfo }

/-- A studentInfo fixture carrying a password. -/
def passwordStudent : StudentInfo := { baseStudentInfo with password := some "secret123" }

/-- An incoming record whose studentInfo carries a password. -/
def passwordRecord : CourseRecord :=
  { baseCourse with customerEmail := some "a@x.com", studentInfo := some passwordStudent }

/-- A studentInfo fixture whose email is present but malformed. -/
def badEmailStudent : StudentInfo := { baseStudentInfo with email := some "not-an-email" }

/-- An incoming record with the malformed email "not-an-email". -/
def badEmailRecord : CourseRecord := { baseCourse with studentInfo := some badEmailStudent }

/-- Incoming record for the email "a@x.com". -/
def lowerCaseRecord : CourseRecord :=
  { baseCourse with courseId := some "cA", studentInfo := some baseStudentInfo }

/-- A studentInfo fixture whose email differs from `baseStudentInfo` only in
case. -/
def upperStudent : StudentInfo := { baseStudentInfo with email := some "A@X.com" }

/-- Incoming record for the email "A@X.com". -/
def upperCaseRecord : CourseRecord :=
  { baseCourse with courseId := some "cB", studentInfo := some upperStudent }

/-- An order with an empty line-item list. -/
def emptyOrder : Order :=
  { id := "O0", orderNumber := none, createdOn := none, customerEmail := none, lineItems := [] }

/-- A PHYSICAL (non-service) line item. -/
def physicalItem : LineItem :=
  { id := none, lineItemType := "PHYSICAL", productName := some "T-Shirt", imageUrl := none
    customizations := [], variantOptions := [] }

/-- An order whose only line item is PHYSICAL. -/
def physicalOrder : Order :=
  { id := "O2", orderNumber := none, createdOn := none, customerEmail := none
    lineItems := [physicalItem] }

/-- A SERVICE line item whose product name matches no classifier. -/
def soapItem : LineItem :=
  { id := none, lineItemType := "SERVICE", productName := some "Handmade Soap", imageUrl := none
    customizations := [], variantOptions := [] }

/-- An order whose only line item is the unclassified SERVICE item. -/
def soapOrder : Order :=
  { id := "O3", orderNumber := none, createdOn := none, customerEmail := none
    lineItems := [soapItem] }

/-- The line item of the C9 scenario order. -/
def itemO1 : LineItem :=
  { id := none, lineItemType := "SERVICE", productName := some "Associates Program"
    imageUrl := none
    customizations := [{ label := "Name", value := "Amina Khan" },
                       { label := "Email", value := "amina@example.com" }]
    variantOptions := [{ optionName := "Plan", value := "Full" },
                       { optionName := "Section", value := "Year 1" }] }

/-- The C9 scenario order `{id:"O1", lineItems:[...]}`. -/
def orderO1 : Order :=
  { id := "O1", orderNumber := none, createdOn := none, customerEmail := none
    lineItems := [itemO1] }

/-- A bare order used to instantiate the dispatch theorem. -/
def dispatchOrder : Order :=
  { id := "O4", orderNumber := none, createdOn := none, customerEmail := none, lineItems := [] }

/-- A SERVICE line item named "Prophetic Guidance Program". -/
def dispatchItem : LineItem :=
  { id := none, lineItemType := "SERVICE", productName := some "Prophetic Guidance Program"
    imageUrl := none, customizations := [], variantOptions := [] }

/-- Claim C9: the scenario order O1 with one SERVICE "Associates Program"
line item (Name "Amina Khan", Email "amina@example.com", Plan "Full",
Section "Year 1") yields exactly one CourseRecord with
studentInfo.firstName "Amina", lastName "Khan", email
"amina@example.com", and placement details level "Year 1" and plan
"Full". -/
theorem C9_scenario :
    (AssociatesProgram.createAssociatesProgramModel orderO1).map (fun r =>
        (r.studentInfo.map StudentInfo.firstName,
         r.studentInfo.map StudentInfo.lastName,
         r.studentInfo.bind StudentInfo.email,
         r.placementInfo.map PlacementInfo.level,
         r.placementInfo.map PlacementInfo.plan)) =
      [(some "Amina", some "Khan", some "amina@example.com", some "Year 1", some "Full")] := by
  decide

/-- Claim C1, counterexample: an incoming record that agrees with a stored
course on the whole composite (courseType, courseName, section, plan) --
here courseType "Generic", courseName "X", and equal (absent) section
and plan fragments -- but differs in courseId is NOT treated as a
duplicate by the part_010 merge: it is appended to the document and
counted, so two records with the same composite identity key persist. -/
theorem C1_counterexample :
    genericIncoming.courseType = baseCourse.courseType ∧
      genericIncoming.courseName = baseCourse.courseName ∧
      genericIncoming.placementInfo = baseCourse.placementInfo ∧
      genericIncoming.guidanceDetails = baseCourse.guidanceDetails ∧
      genericIncoming.courseId ≠ baseCourse.courseId ∧
      saveToFirestore_010 [genericIncoming] [genericDoc] =
        ([{ genericDoc with
            courses := some [baseCourse, { baseCourse with courseId := some "c2" }] }], 1) := by
  decide

/-- Claim C3: the part_013 create path persists the full studentInfo of the
first record of the group, password included; running it on one record
whose studentInfo carries password "secret123" against an empty store
produces a document whose persisted password is "secret123". -/
theorem C3_password_persisted :
    ((saveToFirestore_013 [passwordRecord] []).1.headD default).studentInfo.bind
        StudentInfo.password = some "secret123" ∧
      (saveToFirestore_013 [passwordRecord] []).2 = 1 := by
  decide

/-- Claim C4, counterexample: part_010 validates only presence of an email,
not its shape; a record whose email is "not-an-email" (rejected by the
part_013 regex) is grouped and persisted with count 1 rather than
dropped. -/
theorem C4_counterexample :
    emailRegexTest "not-an-email" = false ∧
      saveToFirestore_010 [badEmailRecord] [] =
        ([{ docId := "not-an-email"
            studentInfo := some { badEmailStudent with email := some "not-an-email" }
            customerEmail := none
            courses := some [stripStudentInfo badEmailRecord] }], 1) := by
  decide

/-- Claim C6, counterexample: an order whose line-item list is empty
contains zero SERVICE line items, yet the grouping-variant mapper
returns null (`none`), not an empty sequence. -/
theorem C6_counterexample :
    mapCourseToModel_v1 emptyOrder = none ∧ mapCourseToModel_v1 emptyOrder ≠ some [] := by
  decide

/-- Claim C7, counterexample: in the grouping-variant mapper an order whose
only SERVICE line item has the unclassified product name "Handmade Soap"
maps to the empty sequence -- the unclassified product is dropped from
the output instead of being routed to a Generic builder. -/
theorem C7_counterexample :
    isAssociatesProgram (some "Handmade Soap") = false ∧
      isPropheticGuidance (some "Handmade Soap") = false ∧
      mapCourseToModel_v1 soapOrder = some [] := by
  decide

/-- Claim C8, counterexample: labels are NOT trimmed before matching -- the
pair labeled "Name " (trailing blank) is missed by a lookup of "Name"
although the labels agree after trimming case-insensitively -- and the
Associates object-entries lookup returns the LAST value of a duplicated
label, not the first. -/
theorem C8_counterexample :
    getCustomization [{ label := "Name ", value := "Amina" }] "Name" = "" ∧
      jsTrim (jsToLower "Name ") = jsTrim (jsToLower "Name") ∧
      fromEntriesGet [{ label := "Email", value := "first@x.com" },
                      { label := "Email", value := "second@x.com" }] "Email" =
        some "second@x.com" := by
  decide

/-! Helper lemmas about the grouping and store primitives. -/

theorem keys_addToGroup {α : Type} (gs : List (String × List α)) (e : String) (x : α) :
    (addToGroup gs e x).map Prod.fst =
      if e ∈ gs.map Prod.fst then gs.map Prod.fst else gs.map Prod.fst ++ [e] := by
  induction gs with
  | nil => simp [addToGroup]
  | cons hd tl ih =>
    obtain ⟨k, xs⟩ := hd
    by_cases hk : k = e
    · subst hk
      simp [addToGroup]
    · simp only [addToGroup, if_neg hk, List.map_cons]
      rw [ih]
      by_cases he : e ∈ tl.map Prod.fst
      · simp [he, Ne.symm hk]
      · simp [he, Ne.symm hk]

theorem mem_keys_addToGroup {α : Type} (gs : List (String × List α)) (e a : String) (x : α) :
    a ∈ (addToGroup gs e x).map Prod.fst ↔ a ∈ gs.map Prod.fst ∨ a = e := by
  rw [keys_addToGroup]
  by_cases he : e ∈ gs.map Prod.fst
  · simp only [if_pos he]
    constructor
    · exact Or.inl
    · rintro (h | rfl)
      · exact h
      · exact he
  · simp [he, List.mem_append]

theorem nodup_keys_addToGroup {α : Type} (gs : List (String × List α)) (e : String) (x : α)
    (h : (gs.map Prod.fst).Nodup) : ((addToGroup gs e x).map Prod.fst).Nodup := by
  rw [keys_addToGroup]
  by_cases he : e ∈ gs.map Prod.fst
  · simpa [he]
  · simp [he, List.nodup_append, h]

theorem mem_keys_groupFold (records : List CourseRecord) :
    ∀ (gs : List (String × List CourseRecord)) (a : String),
      (a ∈ (records.foldl groupStep gs).map Prod.fst ↔
        a ∈ gs.map Prod.fst ∨ a ∈ records.filterMap recordEmail?) := by
  induction records with
  | nil => intro gs a; simp
  | cons r rest ih =>
    intro gs a
    rw [List.foldl_cons, List.filterMap_cons]
    cases h : recordEmail? r with
    | none =>
      rw [show groupStep gs r = gs by simp [groupStep, h]]
      rw [ih]
    | some e =>
      rw [show groupStep gs r = addToGroup gs e r by simp [groupStep, h]]
      rw [ih, mem_keys_addToGroup]
      simp only [List.mem_cons]
      tauto

theorem nodup_keys_groupFold (records : List CourseRecord) :
    ∀ gs : List (String × List CourseRecord),
      (gs.map Prod.fst).Nodup → ((records.foldl groupStep gs).map Prod.fst).Nodup := by
  induction records with
  | nil => intro gs h; simpa
  | cons r rest ih =>
    intro gs h
    rw [List.foldl_cons]
    cases he : recordEmail? r with
    | none =>
      rw [show groupStep gs r = gs by simp [groupStep, he]]
      exact ih gs h
    | some e =>
      rw [show groupStep gs r = addToGroup gs e r by simp [groupStep, he]]
      exact ih _ (nodup_keys_addToGroup gs e r h)

theorem mkNewDoc_docId (e : String) (g : List CourseRecord) : (mkNewDoc e g).docId = e := rfl

theorem mkNewDoc_email (e : String) (g : List CourseRecord) :
    (mkNewDoc e g).studentInfo.bind StudentInfo.email = some e := rfl

theorem mkNewDoc_courses (e : String) (g : List CourseRecord) :
    (mkNewDoc e g).courses = some (g.map stripStudentInfo) := rfl

theorem courseKey_strip (c : CourseRecord) : courseKey (stripStudentInfo c) = courseKey c := rfl

theorem find?_mkNewDocs (e : String) (g : List CourseRecord) :
    ∀ gs : List (String × List CourseRecord),
      (gs.map Prod.fst).Nodup → (e, g) ∈ gs →
      (gs.map (fun p => mkNewDoc p.1 p.2)).find?
        (fun d => d.studentInfo.bind StudentInfo.email == some e) = some (mkNewDoc e g) := by
  intro gs
  induction gs with
  | nil => intro _ h; cases h
  | cons hd tl ih =>
    intro hnd hmem
    obtain ⟨e0, g0⟩ := hd
    rcases List.mem_cons.mp hmem with heq | htl
    · cases heq
      rw [List.map_cons]
      apply List.find?_cons_of_pos
      simp [mkNewDoc_email]
    · have hkey : e ∈ tl.map Prod.fst := by
        have := List.mem_map_of_mem Prod.fst htl
        simpa using this
      have he0 : e0 ∉ tl.map Prod.fst := by
        have := hnd
        simp only [List.map_cons, List.nodup_cons] at this
        exact this.1
      have hne : e0 ≠ e := fun h => he0 (h ▸ hkey)
      rw [List.map_cons]
      rw [List.find?_cons_of_neg]
      · exact ih (by simpa [List.map_cons, List.nodup_cons] using hnd.of_cons) htl
      · simp [mkNewDoc_email, hne]

theorem processGroup_010_found_skip (store : List StoredDoc) (e : String)
    (g : List CourseRecord) (d : StoredDoc)
    (hfind : store.find? (fun x => x.studentInfo.bind StudentInfo.email == some e) = some d)
    (hall : ∀ c ∈ g,
      (if ((d.courses.getD []).map courseKey).contains (courseKey c) then false
       else ! (d.courses.getD []).any (fun ec => isDuplicateOf c ec)) = false) :
    processGroup_010 store e g = ([], 0) := by
  have hfilter : (g.filter (fun course =>
      if ((d.courses.getD []).map courseKey).contains (courseKey course) then false
      else ! (d.courses.getD []).any (fun ec => isDuplicateOf course ec))) = [] := by
    rw [List.filter_eq_nil_iff]
    intro c hc
    show ¬ ((if ((d.courses.getD []).map courseKey).contains (courseKey c) then false
      else ! (d.courses.getD []).any (fun ec => isDuplicateOf c ec)) = true)
    rw [hall c hc]
    simp
  unfold processGroup_010
  rw [hfind]
  simp only [hfilter]
  simp

theorem processGroups_010_zero (store : List StoredDoc) :
    ∀ gs : List (String × List CourseRecord),
      (∀ p ∈ gs, processGroup_010 store p.1 p.2 = ([], 0)) →
      processGroups_010 store gs = ([], 0) := by
  intro gs
  induction gs with
  | nil => intro _; rfl
  | cons hd tl ih =>
    intro h
    simp [processGroups_010, h hd (List.mem_cons_self hd tl),
      ih (fun p hp => h p (List.mem_cons_of_mem hd hp))]

theorem processGroup_010_empty (e : String) (g : List CourseRecord) :
    processGroup_010 [] e g =
      ([BatchOp.setDoc e (mkNewDoc e g)], (g.map stripStudentInfo).length) := rfl

theorem processGroups_010_empty_ops :
    ∀ gs : List (String × List CourseRecord),
      (processGroups_010 [] gs).1 =
        gs.map (fun p => BatchOp.setDoc p.1 (mkNewDoc p.1 p.2)) := by
  intro gs
  induction gs with
  | nil => rfl
  | cons hd tl ih => simp [processGroups_010, processGroup_010_empty, ih]

theorem commitBatch_cons (store : List StoredDoc) (op : BatchOp) (ops : List BatchOp) :
    commitBatch store (op :: ops) = commitBatch (applyOp store op) ops := rfl

theorem commitBatch_fresh_setDocs :
    ∀ (gs : List (String × List CourseRecord)) (store : List StoredDoc),
      (gs.map Prod.fst).Nodup →
      (∀ p ∈ gs, ∀ d ∈ store, d.docId ≠ p.1) →
      commitBatch store (gs.map (fun p => BatchOp.setDoc p.1 (mkNewDoc p.1 p.2))) =
        store ++ gs.map (fun p => mkNewDoc p.1 p.2) := by
  intro gs
  induction gs with
  | nil => intro store _ _; simp [commitBatch]
  | cons hd tl ih =>
    intro store hnd hdisj
    obtain ⟨e0, g0⟩ := hd
    have hany : store.any (fun d => d.docId == e0) = false := by
      rw [List.any_eq_false]
      intro d hd
      simp [hdisj (e0, g0) (List.mem_cons_self _ _) d hd]
    have happ : applyOp store (BatchOp.setDoc e0 (mkNewDoc e0 g0)) =
        store ++ [mkNewDoc e0 g0] := by
      simp [applyOp, hany]
    have he0 : e0 ∉ tl.map Prod.fst := by
      have := hnd
      simp only [List.map_cons, List.nodup_cons] at this
      exact this.1
    rw [List.map_cons, commitBatch_cons, happ]
    rw [ih (store ++ [mkNewDoc e0 g0])
      (by simpa [List.map_cons, List.nodup_cons] using hnd.of_cons) ?_]
    · simp
    · intro p hp d hd
      rcases List.mem_append.mp hd with h | h
      · exact hdisj p (List.mem_cons_of_mem _ hp) d h
      · have hd0 : d = mkNewDoc e0 g0 := by simpa using h
        subst hd0
        rw [mkNewDoc_docId]
        intro hEq
        exact he0 (hEq ▸ List.mem_map_of_mem Prod.fst hp)

theorem saveToFirestore_010_eq (records : List CourseRecord) (store : List StoredDoc)
    (h : records.isEmpty = false) :
    saveToFirestore_010 records store =
      (commitBatch store (processGroups_010 store (groupByEmail records)).1,
        (processGroups_010 store (groupByEmail records)).2) := by
  unfold saveToFirestore_010
  rw [h]
  simp

/-- Claim C2: reconciliation by part_010 is idempotent.  Running any record
set against the empty store creates exactly one document per distinct
normalized email (the document ids are exactly the normalized emails of
the valid records and contain no duplicate), and re-running the identical
record set against the resulting store changes nothing and returns a
persisted-record count of 0. -/
theorem C2_idempotent (records : List CourseRecord) :
    ((saveToFirestore_010 records (saveToFirestore_010 records []).1).1 =
        (saveToFirestore_010 records []).1) ∧
      (saveToFirestore_010 records (saveToFirestore_010 records []).1).2 = 0 ∧
      ((saveToFirestore_010 records []).1.map StoredDoc.docId).Nodup ∧
      ∀ e, (∃ d ∈ (saveToFirestore_010 records []).1, d.docId = e) ↔
        e ∈ records.filterMap recordEmail? := by
  by_cases hrec : records.isEmpty
  · have hnil : records = [] := List.isEmpty_iff.mp hrec
    subst hnil
    simp [saveToFirestore_010]
  · have hrecF : records.isEmpty = false := Bool.not_eq_true _ |>.mp hrec
    have hnd : ((groupByEmail records).map Prod.fst).Nodup :=
      nodup_keys_groupFold records [] (by simp)
    have hops : (processGroups_010 [] (groupByEmail records)).1 =
        (groupByEmail records).map (fun p => BatchOp.setDoc p.1 (mkNewDoc p.1 p.2)) :=
      processGroups_010_empty_ops (groupByEmail records)
    have hstore1 : (saveToFirestore_010 records []).1 =
        (groupByEmail records).map (fun p => mkNewDoc p.1 p.2) := by
      rw [saveToFirestore_010_eq records [] hrecF]
      show commitBatch [] (processGroups_010 [] (groupByEmail records)).1 = _
      rw [hops, commitBatch_fresh_setDocs (groupByEmail records) [] hnd
        (by intro p _ d hd; cases hd)]
      simp
    have hids : (saveToFirestore_010 records []).1.map StoredDoc.docId =
        (groupByEmail records).map Prod.fst := by
      rw [hstore1, List.map_map]
      rfl
    have hrun2 : processGroups_010 (saveToFirestore_010 records []).1
        (groupByEmail records) = ([], 0) := by
      apply processGroups_010_zero
      intro p hp
      obtain ⟨e, g⟩ := p
      apply processGroup_010_found_skip _ e g (mkNewDoc e g)
      · rw [hstore1]
        exact find?_mkNewDocs e g (groupByEmail records) hnd hp
      · intro c hc
        have h1 : stripStudentInfo c ∈ g.map stripStudentInfo := List.mem_map_of_mem _ hc
        have h2 : courseKey (stripStudentInfo c) ∈
            (g.map stripStudentInfo).map courseKey := List.mem_map_of_mem _ h1
        rw [courseKey_strip] at h2
        have hcont : (((mkNewDoc e g).courses.getD []).map courseKey).contains
            (courseKey c) = true := by
          rw [mkNewDoc_courses, Option.getD_some]
          exact List.elem_iff.mpr h2
        rw [if_pos hcont]
    refine ⟨?_, ?_, ?_, ?_⟩
    · rw [saveToFirestore_010_eq records _ hrecF]
      show commitBatch _ (processGroups_010 _ (groupByEmail records)).1 = _
      rw [hrun2]
      rfl
    · rw [saveToFirestore_010_eq records _ hrecF]
      show (processGroups_010 _ (groupByEmail records)).2 = 0
      rw [hrun2]
    · rw [hids]
      exact hnd
    · intro e
      have hmm : (∃ d ∈ (saveToFirestore_010 records []).1, d.docId = e) ↔
          e ∈ (saveToFirestore_010 records []).1.map StoredDoc.docId := by
        rw [List.mem_map]
      rw [hmm, hids]
      have := mem_keys_groupFold records [] e
      rw [show (groupByEmail records) = records.foldl groupStep [] from rfl]
      rw [this]
      simp

/-- Claim C1 (amended): in the part_010 merge an incoming record that
matches an existing stored course of the same courseType on the fields
the code compares -- courseName and placement section for
AssociatesProgram (plan is not consulted), courseName, guidance section
and guidance plan for PropheticGuidance -- is treated as a duplicate
regardless of its courseId: nothing is appended for it and the returned
count is 0.  Records of any other courseType are deduplicated only by
courseId-or-orderNumber (see the counterexample). -/
theorem C1_amended_typed_dedup (r : CourseRecord) (store : List StoredDoc) (e : String)
    (d : StoredDoc) (ec : CourseRecord)
    (hemail : recordEmail? r = some e)
    (hfind : store.find? (fun x => x.studentInfo.bind StudentInfo.email == some e) = some d)
    (hec : ec ∈ d.courses.getD [])
    (hmatch :
      (r.courseType = "AssociatesProgram" ∧ ec.courseType = "AssociatesProgram" ∧
        r.courseName = ec.courseName ∧
        r.placementInfo.map PlacementInfo.sectionName =
          ec.placementInfo.map PlacementInfo.sectionName) ∨
      (r.courseType = "PropheticGuidance" ∧ ec.courseType = "PropheticGuidance" ∧
        r.courseName = ec.courseName ∧
        r.guidanceDetails.map GuidanceDetails.sectionName =
          ec.guidanceDetails.map GuidanceDetails.sectionName ∧
        r.guidanceDetails.map GuidanceDetails.plan =
          ec.guidanceDetails.map GuidanceDetails.plan)) :
    saveToFirestore_010 [r] store = (store, 0) := by
  have hdup : isDuplicateOf r ec = true := by
    unfold isDuplicateOf
    rcases hmatch with ⟨h1, h2, h3, h4⟩ | ⟨h1, h2, h3, h4, h5⟩
    · rw [if_pos ⟨h1, h2⟩]
      simp [h3, h4]
    · have hne : ¬ (r.courseType = "AssociatesProgram" ∧
          ec.courseType = "AssociatesProgram") := by
        rintro ⟨hA, _⟩
        rw [h1] at hA
        exact absurd hA (by decide)
      rw [if_neg hne, if_pos ⟨h1, h2⟩]
      simp [h3, h4, h5]
  have hgroups : groupByEmail [r] = [(e, [r])] := by
    simp [groupByEmail, groupStep, hemail, addToGroup]
  have hpg : processGroup_010 store e [r] = ([], 0) := by
    apply processGroup_010_found_skip store e [r] d hfind
    intro c hc
    have hcr : c = r := by simpa using hc
    subst hcr
    by_cases hcont : ((d.courses.getD []).map courseKey).contains (courseKey c) = true
    · rw [if_pos hcont]
    · rw [if_neg hcont]
      have hany : (d.courses.getD []).any (fun ec2 => isDuplicateOf c ec2) = true :=
        List.any_eq_true.mpr ⟨ec, hec, hdup⟩
      rw [hany]
      rfl
  rw [saveToFirestore_010_eq [r] store rfl, hgroups]
  have hzero : processGroups_010 store [(e, [r])] = ([], 0) := by
    simp [processGroups_010, hpg]
  rw [hzero]
  rfl

/-- Witness for C1 (amended): a stored AssociatesProgram course and an
incoming record with the same courseName and section but a different
courseId; the run appends nothing and returns 0. -/
theorem C1_amended_witness :
    (assocIncoming.courseId ≠ assocStored.courseId ∧
        assocStored ∈ assocDoc.courses.getD []) ∧
      saveToFirestore_010 [assocIncoming] [assocDoc] = ([assocDoc], 0) :=
  ⟨⟨by decide, by decide⟩,
    C1_amended_typed_dedup assocIncoming [assocDoc] "a@x.com" assocDoc assocStored
      (by decide) (by decide) (by decide)
      (Or.inl ⟨by decide, by decide, by decide, by decide⟩)⟩

/-- Claim C5: two records whose studentInfo emails normalize (lowercase,
trimmed) to the same string are grouped together by part_010 and, when run
against the empty store, produce exactly one StudentDocument holding both
courses.  Distinctness of the identity keys is not even needed: the
create path attaches the whole group. -/
theorem C5_normalized_grouping (r1 r2 : CourseRecord) (e : String)
    (h1 : recordEmail? r1 = some e) (h2 : recordEmail? r2 = some e) :
    (saveToFirestore_010 [r1, r2] []).1 = [mkNewDoc e [r1, r2]] ∧
      (mkNewDoc e [r1, r2]).courses =
        some [stripStudentInfo r1, stripStudentInfo r2] := by
  constructor
  · have hgroups : groupByEmail [r1, r2] = [(e, [r1, r2])] := by
      simp [groupByEmail, groupStep, h1, h2, addToGroup]
    rw [saveToFirestore_010_eq [r1, r2] [] rfl, hgroups]
    show commitBatch [] (processGroups_010 [] [(e, [r1, r2])]).1 = _
    rw [processGroups_010_empty_ops]
    rw [commitBatch_fresh_setDocs [(e, [r1, r2])] [] (by simp)
      (by intro p _ d hd; cases hd)]
    simp
  · rfl

/-- Witness for C5: the records for "a@x.com" and "A@X.com" normalize to the
same email and produce one document holding both courses. -/
theorem C5_witness :
    (recordEmail? lowerCaseRecord = some "a@x.com" ∧
        recordEmail? upperCaseRecord = some "a@x.com") ∧
      (saveToFirestore_010 [lowerCaseRecord, upperCaseRecord] []).1 =
          [mkNewDoc "a@x.com" [lowerCaseRecord, upperCaseRecord]] ∧
        (mkNewDoc "a@x.com" [lowerCaseRecord, upperCaseRecord]).courses =
          some [stripStudentInfo lowerCaseRecord, stripStudentInfo upperCaseRecord] :=
  ⟨⟨by decide, by decide⟩,
    C5_normalized_grouping lowerCaseRecord upperCaseRecord "a@x.com" (by decide) (by decide)⟩

theorem groupStep_013_invalid (gs : List (String × List CourseRecord)) (r : CourseRecord)
    (h : validRecord_013 r = false) : groupStep_013 gs r = gs := by
  unfold groupStep_013
  unfold validRecord_013 at h
  cases he : recordEmail013? r with
  | none => rfl
  | some e =>
    rw [he] at h
    by_cases h0 : e = ""
    · simp [h0]
    · simp only [h0, if_false, if_neg h0] at h ⊢
      simp [h]

theorem groupFold_013_filter :
    ∀ (records : List CourseRecord) (gs : List (String × List CourseRecord)),
      records.foldl groupStep_013 gs =
        (records.filter validRecord_013).foldl groupStep_013 gs := by
  intro records
  induction records with
  | nil => intro gs; rfl
  | cons r rest ih =>
    intro gs
    rw [List.foldl_cons]
    by_cases hv : validRecord_013 r = true
    · rw [List.filter_cons_of_pos hv, List.foldl_cons, ih]
    · have hvF : validRecord_013 r = false := by
        cases hb : validRecord_013 r
        · rfl
        · exact absurd hb hv
      rw [List.filter_cons_of_neg (by simp [hvF])]
      rw [groupStep_013_invalid gs r hvF, ih]

/-- Claim C4 (amended): the part_013 engine is insensitive to records whose
resolved email is missing, empty, or fails the `local@domain.tld` regex:
running it on any record list gives exactly the same store and count as
running it on the sublist of regex-valid records, so an invalid record --
such as one with email "not-an-email" -- is dropped before grouping,
reaches no document, adds nothing to the count and does not fail the run.
The part_010 variant checks only presence, not shape (see the
counterexample). -/
theorem C4_amended_validation (records : List CourseRecord) (store : List StoredDoc) :
    saveToFirestore_013 records store =
      saveToFirestore_013 (records.filter validRecord_013) store := by
  have hgroups : groupByEmail_013 records =
      groupByEmail_013 (records.filter validRecord_013) := by
    unfold groupByEmail_013
    exact groupFold_013_filter records []
  by_cases h1 : records.isEmpty
  · rw [List.isEmpty_iff.mp h1]
    rfl
  · have h1F : records.isEmpty = false := by
      cases hb : records.isEmpty
      · rfl
      · exact absurd hb h1
    by_cases h2 : (records.filter validRecord_013).isEmpty
    · have hf : records.filter validRecord_013 = [] := List.isEmpty_iff.mp h2
      have hg : groupByEmail_013 records = [] := by
        rw [hgroups, hf]
        rfl
      unfold saveToFirestore_013
      rw [hf]
      simp [h1F, hg, processGroups_013, commitBatch]
    · have h2F : (records.filter validRecord_013).isEmpty = false := by
        cases hb : (records.filter validRecord_013).isEmpty
        · rfl
        · exact absurd hb h2
      unfold saveToFirestore_013
      simp only [h1F, h2F, Bool.false_eq_true, if_false]
      rw [hgroups]

theorem productFold_nonservice :
    ∀ (items : List LineItem) (gs : List (String × List LineItem)),
      (∀ item ∈ items, item.lineItemType ≠ "SERVICE") →
      items.foldl productStep gs = gs := by
  intro items
  induction items with
  | nil => intro gs _; rfl
  | cons it rest ih =>
    intro gs h
    rw [List.foldl_cons]
    rw [show productStep gs it = gs from by
      unfold productStep
      rw [if_neg (h it (List.mem_cons_self _ _))]]
    exact ih gs (fun i hi => h i (List.mem_cons_of_mem _ hi))

/-- Claim C6 (amended): for every order whose line-item list is NON-EMPTY
and contains no SERVICE line item, the grouping-variant mapper returns
the empty sequence (an order with an empty list returns null instead,
see the counterexample); non-service line items never contribute a
record. -/
theorem C6_amended_no_service (order : Order)
    (hne : order.lineItems ≠ [])
    (hns : ∀ item ∈ order.lineItems, item.lineItemType ≠ "SERVICE") :
    mapCourseToModel_v1 order = some [] := by
  have hIsE : order.lineItems.isEmpty = false := by
    cases hl : order.lineItems with
    | nil => exact absurd hl hne
    | cons a l => rfl
  unfold mapCourseToModel_v1 groupByProductName
  rw [hIsE, productFold_nonservice order.lineItems [] hns]
  rfl

/-- Witness for C6 (amended): the order with one PHYSICAL line item maps to
the empty sequence. -/
theorem C6_amended_witness :
    (physicalOrder.lineItems ≠ [] ∧
        ∀ item ∈ physicalOrder.lineItems, item.lineItemType ≠ "SERVICE") ∧
      mapCourseToModel_v1 physicalOrder = some [] :=
  ⟨⟨by decide, by decide⟩, C6_amended_no_service physicalOrder (by decide) (by decide)⟩

theorem keys_productFold_source :
    ∀ (items : List LineItem) (gs : List (String × List LineItem)) (p : String),
      p ∈ (items.foldl productStep gs).map Prod.fst →
      p ∈ gs.map Prod.fst ∨ ∃ item ∈ items, item.lineItemType = "SERVICE" ∧
        item.productName = some p := by
  intro items
  induction items with
  | nil => intro gs p h; exact Or.inl h
  | cons it rest ih =>
    intro gs p h
    rw [List.foldl_cons] at h
    rcases ih (productStep gs it) p h with hgs | ⟨item, hmem, hsvc, hname⟩
    · unfold productStep at hgs
      by_cases hs : it.lineItemType = "SERVICE"
      · rw [if_pos hs] at hgs
        cases hpn : it.productName with
        | none => rw [hpn] at hgs; exact Or.inl hgs
        | some q =>
          rw [hpn] at hgs
          simp only at hgs
          by_cases hq : q = ""
          · rw [if_pos hq] at hgs
            exact Or.inl hgs
          · rw [if_neg hq] at hgs
            rcases (mem_keys_addToGroup gs q p it).mp hgs with h1 | rfl
            · exact Or.inl h1
            · exact Or.inr ⟨it, List.mem_cons_self _ _, hs, hpn⟩
      · rw [if_neg hs] at hgs
        exact Or.inl hgs
    · exact Or.inr ⟨item, List.mem_cons_of_mem _ hmem, hsvc, hname⟩

theorem mapFold_nil (order : Order) :
    ∀ (gs : List (String × List LineItem)) (init : List CourseRecord),
      (∀ p ∈ gs, mapGroup order p.1 p.2 = []) →
      gs.foldl (fun acc g => acc ++ mapGroup order g.1 g.2) init = init := by
  intro gs
  induction gs with
  | nil => intro init _; rfl
  | cons hd tl ih =>
    intro init h
    rw [List.foldl_cons, h hd (List.mem_cons_self _ _), List.append_nil]
    exact ih init (fun p hp => h p (List.mem_cons_of_mem _ hp))

theorem mapGroup_unclassified (order : Order) (p : String) (items : List LineItem)
    (ha : isAssociatesProgram (some p) = false)
    (hp : isPropheticGuidance (some p) = false) : mapGroup order p items = [] := by
  simp [mapGroup, ha, hp]

/-- Claim C7 (amended): in the single-product mapper variant an order whose
first line item carries a product name matching no classifier is routed
to the generic branch, tagged with courseType "Generic" and passed
through unchanged; in the grouping variant an order all of whose SERVICE
product names match no classifier maps to the empty sequence -- the
unclassified products are logged and skipped, not emitted. -/
theorem C7_amended_generic_routing :
    (∀ (order : Order) (firstItem : LineItem) (rest : List LineItem) (cn : String),
        order.lineItems = firstItem :: rest → firstItem.productName = some cn → cn ≠ "" →
        isAssociatesProgram (some cn) = false → isPropheticGuidance (some cn) = false →
        mapCourseToModel_v2 order = some (MappedV2.generic "Generic" order)) ∧
      (∀ order : Order, order.lineItems ≠ [] →
        (∀ item ∈ order.lineItems, item.lineItemType = "SERVICE" →
          ∀ p, item.productName = some p →
            isAssociatesProgram (some p) = false ∧ isPropheticGuidance (some p) = false) →
        mapCourseToModel_v1 order = some []) := by
  constructor
  · intro order firstItem rest cn hli hname hne ha hp
    unfold mapCourseToModel_v2
    rw [hli]
    simp [hname, hne, ha, hp]
  · intro order hne hcls
    have hIsE : order.lineItems.isEmpty = false := by
      cases hl : order.lineItems with
      | nil => exact absurd hl hne
      | cons a l => rfl
    have hnil : ∀ p ∈ groupByProductName order.lineItems, mapGroup order p.1 p.2 = [] := by
      intro p hp
      have hkey : p.1 ∈ (groupByProductName order.lineItems).map Prod.fst :=
        List.mem_map_of_mem _ hp
      rcases keys_productFold_source order.lineItems [] p.1 hkey with h | hsrc
      · simp at h
      · obtain ⟨item, hmem, hsvc, hname⟩ := hsrc
        obtain ⟨ha, hpg⟩ := hcls item hmem hsvc p.1 hname
        exact mapGroup_unclassified order p.1 p.2 ha hpg
    unfold mapCourseToModel_v1
    rw [hIsE, mapFold_nil order (groupByProductName order.lineItems) [] hnil]
    rfl

/-- Witness for C7 (amended): the "Handmade Soap" order routes to the
generic branch in the single-product variant and maps to the empty
sequence in the grouping variant. -/
theorem C7_amended_witness :
    mapCourseToModel_v2 soapOrder = some (MappedV2.generic "Generic" soapOrder) ∧
      mapCourseToModel_v1 soapOrder = some [] :=
  ⟨C7_amended_generic_routing.1 soapOrder soapItem [] "Handmade Soap" rfl rfl
      (by decide) (by decide) (by decide),
    C7_amended_generic_routing.2 soapOrder (by decide)
      (by
        intro item hmem hsvc p hname
        have hitem : item = soapItem := by simpa [soapOrder] using hmem
        subst hitem
        have hp : p = "Handmade Soap" := by
          have h2 : some "Handmade Soap" = some p := by
            simpa [soapItem] using hname
          exact (Option.some.injEq _ _ ▸ h2).symm
        subst hp
        exact ⟨by decide, by decide⟩)⟩

theorem find?_first {α : Type} (p : α → Bool) (c : α) (post : List α) :
    ∀ pre : List α, (∀ a ∈ pre, p a = false) → p c = true →
      (pre ++ c :: post).find? p = some c := by
  intro pre
  induction pre with
  | nil =>
    intro _ hc
    simpa using List.find?_cons_of_pos _ hc
  | cons a pre ih =>
    intro h hc
    rw [List.cons_append, List.find?_cons_of_neg]
    · exact ih (fun x hx => h x (List.mem_cons_of_mem _ hx)) hc
    · simp [h a (List.mem_cons_self _ _)]

/-- Claim C8 (amended): the field extractors return the FIRST value whose
label matches the requested label case-insensitively WITHOUT trimming,
and a safe empty default when nothing matches; they are total functions
and cannot throw.  The Associates-builder object-entries lookup instead
matches labels exactly (case-sensitively) and a duplicated label yields
its LAST value. -/
theorem C8_amended_lookup :
    (∀ (cs : List Customization) (label : String),
        (∀ c ∈ cs, jsToLower c.label ≠ jsToLower label) →
        getCustomization cs label = "") ∧
      (∀ (cs pre post : List Customization) (c : Customization) (label : String),
        cs = pre ++ c :: post → jsToLower c.label = jsToLower label →
        (∀ c2 ∈ pre, jsToLower c2.label ≠ jsToLower label) →
        getCustomization cs label = c.value) ∧
      (∀ (options : List VariantOption) (key : String),
        (∀ o ∈ options, jsToLower o.optionName ≠ jsToLower key) →
        getVariantOption options key = "") ∧
      (∀ (options pre post : List VariantOption) (o : VariantOption) (key : String),
        options = pre ++ o :: post → jsToLower o.optionName = jsToLower key →
        (∀ o2 ∈ pre, jsToLower o2.optionName ≠ jsToLower key) →
        getVariantOption options key = o.value) ∧
      (∀ (cs : List Customization) (key : String),
        (∀ c ∈ cs, c.label ≠ key) → fromEntriesGet cs key = none) ∧
      (∀ (cs pre post : List Customization) (c : Customization) (key : String),
        cs = pre ++ c :: post → c.label = key → (∀ c2 ∈ post, c2.label ≠ key) →
        fromEntriesGet cs key = some c.value) := by
  refine ⟨?_, ?_, ?_, ?_, ?_, ?_⟩
  · intro cs label h
    have hnone : cs.find? (fun cust => jsToLower cust.label == jsToLower label) = none :=
      List.find?_eq_none.mpr (fun c hc => by simp [h c hc])
    simp [getCustomization, hnone]
  · intro cs pre post c label hcs hc hpre
    subst hcs
    have hfind : (pre ++ c :: post).find?
        (fun cust => jsToLower cust.label == jsToLower label) = some c :=
      find?_first _ c post pre
        (fun a ha => by simp [hpre a ha]) (by simp [hc])
    simp [getCustomization, hfind]
  · intro options key h
    have hnone : options.find? (fun opt => jsToLower opt.optionName == jsToLower key) = none :=
      List.find?_eq_none.mpr (fun o ho => by simp [h o ho])
    simp [getVariantOption, hnone]
  · intro options pre post o key hopts ho hpre
    subst hopts
    have hfind : (pre ++ o :: post).find?
        (fun opt => jsToLower opt.optionName == jsToLower key) = some o :=
      find?_first _ o post pre
        (fun a ha => by simp [hpre a ha]) (by simp [ho])
    simp [getVariantOption, hfind]
  · intro cs key h
    have hnone : cs.reverse.find? (fun cust => cust.label == key) = none :=
      List.find?_eq_none.mpr (fun c hc => by simp [h c (List.mem_reverse.mp hc)])
    unfold fromEntriesGet
    rw [hnone]
    rfl
  · intro cs pre post c key hcs hc hpost
    subst hcs
    have hrev : (pre ++ c :: post).reverse = post.reverse ++ c :: pre.reverse := by
      simp
    have hfind : (pre ++ c :: post).reverse.find? (fun cust => cust.label == key) =
        some c := by
      rw [hrev]
      exact find?_first _ c pre.reverse post.reverse
        (fun a ha => by simp [hpost a (List.mem_reverse.mp ha)]) (by simp [hc])
    unfold fromEntriesGet
    rw [hfind]
    rfl

/-- Witness for C8 (amended): a duplicated case-insensitive label yields its
first value in getCustomization, a duplicated case-insensitive option
name yields its first value in getVariantOption (with an empty default
when nothing matches), and a duplicated exact label yields its last
value in the object-entries lookup. -/
theorem C8_amended_witness :
    getCustomization [{ label := "EMAIL", value := "first" },
        { label := "email", value := "second" }] "Email" = "first" ∧
      getVariantOption [{ optionName := "PLAN", value := "Full" },
        { optionName := "plan", value := "Partial" }] "Plan" = "Full" ∧
      getVariantOption [{ optionName := "Plan", value := "Full" }] "Section" = "" ∧
      fromEntriesGet [{ label := "Email", value := "one" },
        { label := "Email", value := "two" }] "Email" = some "two" :=
  ⟨C8_amended_lookup.2.1 _ [] [{ label := "email", value := "second" }]
      { label := "EMAIL", value := "first" } "Email" rfl (by decide)
      (by intro c2 hc2; cases hc2),
    C8_amended_lookup.2.2.2.1 _ [] [{ optionName := "plan", value := "Partial" }]
      { optionName := "PLAN", value := "Full" } "Plan" rfl (by decide)
      (by intro o2 ho2; cases ho2),
    C8_amended_lookup.2.2.1 [{ optionName := "Plan", value := "Full" }] "Section"
      (by decide),
    C8_amended_lookup.2.2.2.2.2 _ [{ label := "Email", value := "one" }] []
      { label := "Email", value := "two" } "Email" rfl rfl
      (by intro c2 hc2; cases hc2)⟩

/-- Claim C10: every non-empty product name containing "program"
case-insensitively satisfies isAssociatesProgram, and since the
grouping-variant mapper tests the Associates classifier first, any such
product group -- including "Prophetic Guidance Program" -- is dispatched
to the Associates Program builder. -/
theorem C10_program_dispatch (s : String) (hs : s ≠ "")
    (hp : containsSub (jsToLower s) "program" = true) :
    isAssociatesProgram (some s) = true ∧
      ∀ (order : Order) (items : List LineItem),
        mapGroup order s items =
          AssociatesProgram.createAssociatesProgramModel
            { order with lineItems := items } := by
  have ha : isAssociatesProgram (some s) = true := by
    simp only [isAssociatesProgram]
    rw [if_neg hs]
    simp [hp]
  exact ⟨ha, fun order items => by simp [mapGroup, ha]⟩

/-- Witness for C10: "Prophetic Guidance Program" satisfies BOTH
classifiers, and the mapper nevertheless dispatches it to the Associates
Program builder. -/
theorem C10_witness :
    isPropheticGuidance (some "Prophetic Guidance Program") = true ∧
      isAssociatesProgram (some "Prophetic Guidance Program") = true ∧
      mapGroup dispatchOrder "Prophetic Guidance Program" [dispatchItem] =
        AssociatesProgram.createAssociatesProgramModel
          { dispatchOrder with lineItems := [dispatchItem] } :=
  ⟨by decide,
    (C10_program_dispatch "Prophetic Guidance Program" (by decide) (by decide)).1,
    (C10_program_dispatch "Prophetic Guidance Program" (by decide) (by decide)).2
      dispatchOrder [dispatchItem]⟩
